import Mathlib

/-!
Shallow embedding of the movie catalog service (FastAPI homework repository):
the record store, the Query Service (paginated list and detail lookup from
`routes/movies.py`), the HTTP facade's parameter validation, the CSV seeder
(`database/populate.py`), and the response serialization
(`schemas/movies.py`), together with theorems settling the specification
claims about them.

Numeric columns (`score`, `budget`, `revenue`) are modelled as rationals:
`budget` is `DECIMAL(10,2)` and the float values of `score`/`revenue` embed
into ℚ exactly. Dates are a concrete year/month/day structure.
-/

/-- Calendar date as stored in the `movies.date` column (`Date`, not null). -/
structure PDate where
  year : Nat
  month : Nat
  day : Nat
  deriving DecidableEq, Repr

/-- Row of the `movies` table (`MovieModel` in `database/models.py`):
all columns are declared NOT NULL, `id` is the autoincrement primary key,
and `(name, date)` carries a unique constraint (see `uniqueNameDate`). -/
structure MovieRecord where
  id : Nat
  name : String
  date : PDate
  score : ℚ
  genre : String
  overview : String
  crew : String
  orig_title : String
  status : String
  orig_lang : String
  budget : ℚ
  revenue : ℚ
  country : String
  deriving DecidableEq, Repr

/-- Error raised through `HTTPException(status_code=..., detail=...)`. -/
structure HTTPError where
  status_code : Nat
  detail : String
  deriving DecidableEq, Repr

/-- Body of a successful list response (`MovieListResponseSchema`). -/
structure ListResponse where
  movies : List MovieRecord
  prev_page : Option String
  next_page : Option String
  total_pages : Nat
  total_items : Nat
  deriving DecidableEq, Repr

/-- Ordering of records by ascending identifier (`order_by(MovieModel.id)`). -/
def idLe (a b : MovieRecord) : Prop := a.id ≤ b.id

instance : DecidableRel idLe := fun a b => Nat.decLe a.id b.id

instance : IsTotal MovieRecord idLe := ⟨fun a b => Nat.le_total a.id b.id⟩

instance : IsTrans MovieRecord idLe := ⟨fun _ _ _ h1 h2 => Nat.le_trans h1 h2⟩

/-- The store's rows ordered by ascending identifier, as produced by
`select(MovieModel).order_by(MovieModel.id)`. -/
def sortById (db : List MovieRecord) : List MovieRecord :=
  List.insertionSort idLe db

/-- Pagination link as built in `get_movies`:
`f"/theater/movies/?page={p}&per_page={pp}"`. -/
def pageLink (p per_page : Nat) : String :=
  "/theater/movies/?page=" ++ toString p ++ "&per_page=" ++ toString per_page

/-- Handler `get_movies` of `routes/movies.py`. `page` and `per_page` arrive
as naturals because the facade's validation (`Query(1, ge=1)`,
`Query(10, ge=1, le=20)`) has already enforced the lower bounds. -/
def get_movies (db : List MovieRecord) (page per_page : Nat) :
    Except HTTPError ListResponse :=
  let total_items := db.length
  let offset := (page - 1) * per_page
  let movies := ((sortById db).drop offset).take per_page
  if movies.isEmpty then
    .error ⟨404, "No movies found."⟩
  else
    let total_pages := (total_items + per_page - 1) / per_page
    let prev_page := if page > 1 then some (pageLink (page - 1) per_page) else none
    let next_page := if page < total_pages then some (pageLink (page + 1) per_page) else none
    .ok ⟨movies, prev_page, next_page, total_pages, total_items⟩

/-- The page of rows fetched by the list query before the emptiness check. -/
def fetchedPage (db : List MovieRecord) (page per_page : Nat) : List MovieRecord :=
  ((sortById db).drop ((page - 1) * per_page)).take per_page

/-- SQLAlchemy's `Result.scalar_one_or_none`: none for an empty result,
the row for a singleton, and a `MultipleResultsFound` error otherwise. -/
def scalar_one_or_none {α : Type} (l : List α) : Except String (Option α) :=
  match l with
  | [] => .ok none
  | [a] => .ok (some a)
  | _ => .error "MultipleResultsFound"

/-- Handler `get_movie_by_id` of `routes/movies.py`: filter the store on
`MovieModel.id == movie_id`, take `scalar_one_or_none`, and raise 404 when
absent. `movie_id` is an `Int` because the `movie_id: int` path parameter
admits any integer. -/
def get_movie_by_id (db : List MovieRecord) (movie_id : Int) :
    Except HTTPError MovieRecord :=
  match scalar_one_or_none (db.filter (fun m => (m.id : Int) == movie_id)) with
  | .error e => .error ⟨500, e⟩
  | .ok none => .error ⟨404, "Movie with the given ID was not found."⟩
  | .ok (some m) => .ok m

/-- One entry of FastAPI's 422 response body: the offending parameter and
its message. -/
structure ValidationError where
  field : String
  msg : String
  deriving DecidableEq, Repr

/-- Outcome of a request as seen by the HTTP client: a 2xx body, an
`HTTPException` raised by the handler, or a 422 validation failure produced
by the framework before the handler runs. -/
inductive FacadeResult (α : Type) where
  | ok (a : α)
  | httpError (e : HTTPError)
  | validationError (errs : List ValidationError)
  deriving DecidableEq, Repr

/-- Whether the facade outcome is a 422 validation failure. -/
def FacadeResult.is422 {α : Type} : FacadeResult α → Bool
  | .validationError _ => true
  | _ => false

/-- FastAPI validation of the `page`/`per_page` query parameters against the
declared bounds `Query(1, ge=1)` and `Query(10, ge=1, le=20)`; the messages
are FastAPI's standard bound-violation messages (asserted verbatim by the
repository's tests). Absent parameters take the declared defaults. -/
def validateListParams (page per_page : Option Int) : List ValidationError :=
  let p := page.getD 1
  let pp := per_page.getD 10
  (if p < 1 then [⟨"page", "Input should be greater than or equal to 1"⟩] else []) ++
  (if pp < 1 then [⟨"per_page", "Input should be greater than or equal to 1"⟩]
   else if 20 < pp then [⟨"per_page", "Input should be less than or equal to 20"⟩] else [])

/-- The `GET /movies/` route as exposed by the facade: parameters are
validated against the declared bounds, and only then does the handler run. -/
def facade_get_movies (db : List MovieRecord) (page per_page : Option Int) :
    FacadeResult ListResponse :=
  let errs := validateListParams page per_page
  if errs.isEmpty then
    match get_movies db (page.getD 1).toNat (per_page.getD 10).toNat with
    | .ok resp => .ok resp
    | .error e => .httpError e
  else .validationError errs

/-- The `GET /movies/{movie_id}/` route as exposed by the facade. The path
segment is pre-parsed: `none` stands for a segment that does not parse as an
integer (rejected 422 by FastAPI for the declared type `int`), `some i` for
the parsed integer, on which the declaration imposes no further bound. -/
def facade_get_movie_by_id (db : List MovieRecord) (segment : Option Int) :
    FacadeResult MovieRecord :=
  match segment with
  | none => .validationError [⟨"movie_id", "Input should be a valid integer"⟩]
  | some i =>
    match get_movie_by_id db i with
    | .ok m => .ok m
    | .error e => .httpError e

/-- Version segment under which the router is mounted in `main.py`
(`api_version_prefix = "/api/v1"`; the name is shortened here). -/
def apiVersionPfx : String := "/api/v1"

/-- Full mounted path of the list route: `include_router` with
`f"{api_version_prefix}/theater"`, the router's own `/movies`, and the route
path `/`. -/
def listRouteFullPath : String := apiVersionPfx ++ "/theater" ++ "/movies" ++ "/"

/-- Uniqueness invariant declared by `UniqueConstraint("name", "date")` on
the `movies` table: no two rows share the `(name, date)` pair. -/
def uniqueNameDate (db : List MovieRecord) : Prop :=
  db.Pairwise (fun a b => ¬(a.name = b.name ∧ a.date = b.date))

/-- Raw CSV row as loaded by `pd.read_csv` (columns used by the seeder).
`crew` and `genre` are optional because those columns may hold missing
values that `_preprocess_csv` fills with "Unknown"; the numeric columns
arrive as exact rationals (`float(...)` is assumed to succeed on them). -/
structure CsvRow where
  names : String
  date_x : String
  score : ℚ
  genre : Option String
  overview : String
  crew : Option String
  orig_title : String
  status : String
  orig_lang : String
  budget_x : ℚ
  revenue : ℚ
  country : String
  deriving DecidableEq, Repr

/-- CSV row after `_preprocess_csv`: strings filled, the date column parsed
to a calendar date or coerced to null (`errors="coerce"` yields NaT). -/
structure PreRow where
  names : String
  date_x : Option PDate
  score : ℚ
  genre : String
  overview : String
  crew : String
  orig_title : String
  status : String
  orig_lang : String
  budget_x : ℚ
  revenue : ℚ
  country : String
  deriving DecidableEq, Repr

/-- Key used by `drop_duplicates(subset=["names", "date_x"])`: the raw
name and raw (unstripped, unparsed) date strings. -/
def rawKey (r : CsvRow) : String × String := (r.names, r.date_x)

/-- Worker for `drop_duplicates(..., keep="first")`: keep a row only when
its key was not seen earlier. -/
def dropDupAux : List CsvRow → List (String × String) → List CsvRow
  | [], _ => []
  | r :: rs, seen =>
    if rawKey r ∈ seen then dropDupAux rs seen
    else r :: dropDupAux rs (rawKey r :: seen)

/-- `data.drop_duplicates(subset=["names", "date_x"], keep="first")`. -/
def drop_duplicates (rows : List CsvRow) : List CsvRow :=
  dropDupAux rows []

/-- Decimal-digit parse of a nonempty, bounded-length run of digits, as
`strptime`-style field matching does. -/
def parseDigits (maxLen : Nat) (s : List Char) : Option Nat :=
  if s.length = 0 ∨ maxLen < s.length ∨ ¬s.all Char.isDigit then none
  else some (s.foldl (fun acc c => acc * 10 + (c.toNat - '0'.toNat)) 0)

/-- Gregorian leap-year rule, used for calendar validity of parsed dates. -/
def isLeap (y : Nat) : Bool :=
  (y % 4 == 0 && y % 100 != 0) || y % 400 == 0

/-- Number of days in a month, for calendar validity of parsed dates. -/
def daysInMonth (y m : Nat) : Nat :=
  if m = 2 then (if isLeap y then 29 else 28)
  else if m = 4 ∨ m = 6 ∨ m = 9 ∨ m = 11 then 30
  else 31

/-- The whitespace characters stripped by Python's `str.strip()`. -/
def isSpaceChar (c : Char) : Bool :=
  c = ' ' ∨ c = '\t' ∨ c = '\n' ∨ c = '\r' ∨ c = '\x0b' ∨ c = '\x0c'

/-- `str.strip()` over the character list: drop whitespace at both ends. -/
def trimChars (s : List Char) : List Char :=
  ((s.dropWhile isSpaceChar).reverse.dropWhile isSpaceChar).reverse

/-- `str.strip()` as applied to the `date_x` column. -/
def strTrim (s : String) : String :=
  String.mk (trimChars s.data)

/-- Split a character list on the `/` separator (the field separator of the
`%m/%d/%Y` date format). -/
def splitOnSlash : List Char → List (List Char)
  | [] => [[]]
  | c :: cs =>
    let rest := splitOnSlash cs
    if c = '/' then [] :: rest
    else
      match rest with
      | [] => [[c]]
      | g :: gs => (c :: g) :: gs

/-- Strict parse in the `%m/%d/%Y` format used by
`pd.to_datetime(..., format="%m/%d/%Y", errors="coerce")`: three
slash-separated digit fields, month and day of one or two digits, year of
up to four digits, and the triple must be a valid calendar date; anything
else yields `none` (pandas coerces it to NaT). -/
def parse_mdY (s : String) : Option PDate :=
  match splitOnSlash s.data with
  | [ms, ds, ys] =>
    match parseDigits 2 ms, parseDigits 2 ds, parseDigits 4 ys with
    | some m, some d, some y =>
      if 1 ≤ m ∧ m ≤ 12 ∧ 1 ≤ d ∧ d ≤ daysInMonth y m then some ⟨y, m, d⟩
      else none
    | _, _, _ => none
  | _ => none

/-- `data["genre"].str.replace(" ", "", regex=True)`: delete every
non-breaking-space character. -/
def removeNbsp (s : String) : String :=
  String.mk (s.data.filter (fun c => c ≠ ' '))

/-- Per-row effect of `_preprocess_csv` after deduplication: fill missing
crew/genre with "Unknown", strip the non-breaking space from genre, strip
whitespace around the date and parse it (unparseable dates become null;
the row itself is kept). -/
def preprocessRow (r : CsvRow) : PreRow :=
  { names := r.names
    date_x := parse_mdY (strTrim r.date_x)
    score := r.score
    genre := removeNbsp (r.genre.getD "Unknown")
    overview := r.overview
    crew := r.crew.getD "Unknown"
    orig_title := r.orig_title
    status := r.status
    orig_lang := r.orig_lang
    budget_x := r.budget_x
    revenue := r.revenue
    country := r.country }

/-- `CSVDatabaseSeeder._preprocess_csv`: deduplicate on the raw
`(names, date_x)` pair keeping the first occurrence, then apply the
per-row cleaning. No row is dropped by the date-parsing step. -/
def preprocess_csv (rows : List CsvRow) : List PreRow :=
  (drop_duplicates rows).map preprocessRow

/-- Database error surfaced through `SQLAlchemyError` when flushing the
batch: a NULL in the NOT NULL `date` column, or a violation of the
`(name, date)` unique constraint. -/
inductive SeedError where
  | notNullViolation
  | uniqueViolation
  deriving DecidableEq, Repr

/-- The `MovieModel(...)` record built from a preprocessed row in `seed`,
given the already-parsed date `d` and the autoincrement id `nid`. -/
def rowToMovie (nid : Nat) (r : PreRow) (d : PDate) : MovieRecord :=
  { id := nid, name := r.names, date := d, score := r.score,
    genre := r.genre, overview := r.overview, crew := r.crew,
    orig_title := r.orig_title, status := r.status,
    orig_lang := r.orig_lang, budget := r.budget_x,
    revenue := r.revenue, country := r.country }

/-- Insertion of one `MovieModel(...)` built from a preprocessed row, with
the autoincrement id `nid`: fails on a null date (NOT NULL column) or on a
`(name, date)` pair already present (unique constraint). -/
def insertMovie (db : List MovieRecord) (nid : Nat) (r : PreRow) :
    Except SeedError (List MovieRecord) :=
  match r.date_x with
  | none => .error .notNullViolation
  | some d =>
    if db.any (fun m => decide (m.name = r.names ∧ m.date = d)) then
      .error .uniqueViolation
    else
      .ok (db ++ [rowToMovie nid r d])

/-- The seeding loop inside `async with self._db_session.begin()`: insert
the rows one by one, stopping at the first database error. -/
def seedLoop (db : List MovieRecord) (nid : Nat) :
    List PreRow → Except SeedError (List MovieRecord)
  | [] => .ok db
  | r :: rs =>
    match insertMovie db nid r with
    | .error e => .error e
    | .ok db2 => seedLoop db2 (nid + 1) rs

/-- Next autoincrement id for the `movies` table. -/
def nextIdOf (db : List MovieRecord) : Nat :=
  (db.map (fun m => m.id)).foldr max 0 + 1

/-- `CSVDatabaseSeeder.seed`: preprocess the CSV and insert every remaining
row inside a single transaction; on a database error the transaction is
rolled back (the store is left unchanged) and the error propagates to the
caller as the second component. -/
def seed (db : List MovieRecord) (rows : List CsvRow) :
    List MovieRecord × Option SeedError :=
  match seedLoop db (nextIdOf db) (preprocess_csv rows) with
  | .ok db2 => (db2, none)
  | .error e => (db, some e)

/-- JSON object produced for one movie by `MovieDetailResponseSchema`. -/
structure SerializedMovie where
  id : Nat
  name : String
  date : String
  score : Int
  genre : String
  overview : String
  crew : String
  orig_title : String
  status : String
  orig_lang : String
  budget : Int
  revenue : Int
  country : String
  deriving DecidableEq, Repr

/-- Two-digit zero-padded decimal rendering. -/
def pad2 (n : Nat) : String :=
  if n < 10 then "0" ++ toString n else toString n

/-- Four-digit zero-padded decimal rendering. -/
def pad4 (n : Nat) : String :=
  if n < 10 then "000" ++ toString n
  else if n < 100 then "00" ++ toString n
  else if n < 1000 then "0" ++ toString n
  else toString n

/-- `date.isoformat()`: `YYYY-MM-DD`. -/
def isoDate (d : PDate) : String :=
  pad4 d.year ++ "-" ++ pad2 d.month ++ "-" ++ pad2 d.day

/-- Pydantic v2 lax coercion of a stored numeric value into a field
annotated `int` (`score: int`, `budget: int` in the schema): a value with a
fractional part is rejected ("Input should be a valid integer, got a number
with a fractional part"), so only whole numbers pass. -/
def intCoerce (q : ℚ) : Option Int :=
  if q.den = 1 then some q.num else none

/-- Python `int(v)` as used by the `revenue` field serializer: truncation
toward zero. -/
def intTrunc (q : ℚ) : Int :=
  q.num.tdiv (q.den : Int)

/-- Serialization of one record through `MovieDetailResponseSchema`: model
validation coerces `score` and `budget` to `int` (failing on fractional
values, yielding `none`), the `date` field serializer renders ISO-8601, and
the `revenue` field serializer truncates with `int(v)`. -/
def serialize_movie (m : MovieRecord) : Option SerializedMovie := do
  let sc ← intCoerce m.score
  let bu ← intCoerce m.budget
  pure { id := m.id, name := m.name, date := isoDate m.date, score := sc,
         genre := m.genre, overview := m.overview, crew := m.crew,
         orig_title := m.orig_title, status := m.status,
         orig_lang := m.orig_lang, budget := bu,
         revenue := intTrunc m.revenue, country := m.country }

/-- Sample record used to instantiate theorems on concrete stores. -/
def mkMovie (i : Nat) : MovieRecord :=
  { id := i, name := "M" ++ toString i, date := ⟨2000, 1, 15⟩, score := 7,
    genre := "Drama", overview := "An overview", crew := "A crew",
    orig_title := "A title", status := "Released", orig_lang := "en",
    budget := 100, revenue := 100, country := "US" }

/-- Concrete three-record store for witnesses. -/
def wdb : List MovieRecord := [mkMovie 1, mkMovie 2, mkMovie 3]

/-- Sample raw CSV row used to instantiate the seeder theorems. -/
def rawRow (nm dt : String) : CsvRow :=
  { names := nm, date_x := dt, score := 7, genre := some "Drama",
    overview := "An overview", crew := none, orig_title := "A title",
    status := "Released", orig_lang := "en", budget_x := 100, revenue := 100,
    country := "US" }

/-- The response `get_movies wdb 2 2` returns, used to instantiate the
pagination theorems. -/
def wresp : ListResponse :=
  { movies := [mkMovie 3], prev_page := some (pageLink 1 2),
    next_page := none, total_pages := 2, total_items := 3 }

/-- Record with fractional budget and revenue, exercising the divergent
numeric renderings of the response schema. -/
def fracMovie : MovieRecord :=
  { mkMovie 1 with budget := 201 / 2, revenue := 201 / 2 }

/-- Sorting by identifier preserves the number of rows. -/
theorem sortById_length (db : List MovieRecord) :
    (sortById db).length = db.length :=
  (List.perm_insertionSort idLe db).length_eq

/-- The sorted store really is sorted by ascending identifier. -/
theorem sortById_sorted (db : List MovieRecord) :
    List.Sorted idLe (sortById db) :=
  List.sorted_insertionSort idLe db

/-- The fetched page is a sublist of the sorted store, hence sorted. -/
theorem fetchedPage_sorted (db : List MovieRecord) (page per_page : Nat) :
    List.Sorted idLe (fetchedPage db page per_page) := by
  have hsub : List.Sublist (fetchedPage db page per_page) (sortById db) :=
    ((List.take_sublist _ _).trans (List.drop_sublist _ _))
  exact (sortById_sorted db).sublist hsub

/-- Length of the fetched page: `per_page` rows unless the tail of the store
runs out first. -/
theorem fetchedPage_length (db : List MovieRecord) (page per_page : Nat) :
    (fetchedPage db page per_page).length =
      min per_page (db.length - (page - 1) * per_page) := by
  unfold fetchedPage
  rw [List.length_take, List.length_drop, sortById_length]

/-- The fetched page is empty exactly when the offset exhausts the store
(given a positive `per_page`). -/
theorem fetchedPage_eq_nil_iff (db : List MovieRecord) (page per_page : Nat)
    (hpp : 1 ≤ per_page) :
    fetchedPage db page per_page = [] ↔ db.length ≤ (page - 1) * per_page := by
  unfold fetchedPage
  rw [List.take_eq_nil_iff, List.drop_eq_nil_iff, sortById_length]
  omega

/-- Destructor for a successful run of `get_movies`: shape of every field of
the response. -/
theorem get_movies_ok_spec (db : List MovieRecord) (page per_page : Nat)
    (resp : ListResponse) (h : get_movies db page per_page = .ok resp) :
    resp.movies = fetchedPage db page per_page ∧
    fetchedPage db page per_page ≠ [] ∧
    resp.total_items = db.length ∧
    resp.total_pages = (db.length + per_page - 1) / per_page ∧
    resp.prev_page =
      (if 1 < page then some (pageLink (page - 1) per_page) else none) ∧
    resp.next_page =
      (if page < (db.length + per_page - 1) / per_page then
        some (pageLink (page + 1) per_page) else none) := by
  unfold get_movies at h
  simp only [List.isEmpty_iff] at h
  split at h
  · exact absurd h (by simp)
  · next hne =>
    injection h with h
    subst h
    refine ⟨rfl, hne, rfl, rfl, rfl, rfl⟩

/-- An unsuccessful emptiness check yields exactly the 404 of the handler. -/
theorem get_movies_empty_spec (db : List MovieRecord) (page per_page : Nat)
    (h : fetchedPage db page per_page = []) :
    get_movies db page per_page = .error ⟨404, "No movies found."⟩ := by
  unfold get_movies
  simp only [List.isEmpty_iff]
  split
  · rfl
  · next hne => exact absurd h hne

/-- Arithmetic core of pagination: a nonempty page implies the page number
is at most the total number of pages. -/
theorem page_le_total_pages (page per_page total : Nat) (hp : 1 ≤ page)
    (hpp : 1 ≤ per_page) (hlt : (page - 1) * per_page < total) :
    page ≤ (total + per_page - 1) / per_page := by
  rw [Nat.le_div_iff_mul_le hpp]
  have hexp : page * per_page = (page - 1) * per_page + per_page := by
    have : page - 1 + 1 = page := Nat.succ_pred_eq_of_pos hp
    calc page * per_page = (page - 1 + 1) * per_page := by rw [this]
    _ = (page - 1) * per_page + per_page := by ring
  omega

/-- A page number beyond the total number of pages pushes the offset past
the end of the store. -/
theorem offset_ge_of_page_gt (page per_page total : Nat) (hpp : 1 ≤ per_page)
    (hgt : (total + per_page - 1) / per_page < page) :
    total ≤ (page - 1) * per_page := by
  have h1 : (total + per_page - 1) / per_page ≤ page - 1 := by omega
  have h2 : total ≤ ((total + per_page - 1) / per_page) * per_page + 0 := by
    have hdm := Nat.div_add_mod (total + per_page - 1) per_page
    have hmod : (total + per_page - 1) % per_page < per_page :=
      Nat.mod_lt _ hpp
    have hcomm : ((total + per_page - 1) / per_page) * per_page =
        per_page * ((total + per_page - 1) / per_page) := Nat.mul_comm _ _
    rw [hcomm]
    generalize (total + per_page - 1) % per_page = r at hdm hmod
    generalize per_page * ((total + per_page - 1) / per_page) = m at hdm ⊢
    omega
  calc total ≤ ((total + per_page - 1) / per_page) * per_page + 0 := h2
  _ = ((total + per_page - 1) / per_page) * per_page := by omega
  _ ≤ (page - 1) * per_page := Nat.mul_le_mul_right _ h1

/-- The integer `(total + per - 1) / per` computed by the handler is the
ceiling of the exact rational `total / per`. -/
theorem natCeilDiv_eq_ceil (total per : Nat) (hper : 1 ≤ per) :
    (((total + per - 1) / per : Nat) : ℤ) = ⌈(total : ℚ) / (per : ℚ)⌉ := by
  have hper' : (0 : ℚ) < (per : ℚ) := by exact_mod_cast hper
  have key : total ≤ per * ((total + per - 1) / per) ∧
      per * ((total + per - 1) / per) < total + per := by
    have hdm := Nat.div_add_mod (total + per - 1) per
    have hmod : (total + per - 1) % per < per := Nat.mod_lt _ hper
    generalize (total + per - 1) % per = r at hdm hmod
    generalize per * ((total + per - 1) / per) = m at hdm ⊢
    omega
  obtain ⟨hA, hB⟩ := key
  generalize (total + per - 1) / per = n at hA hB ⊢
  have hAq : (total : ℚ) ≤ (per : ℚ) * (n : ℚ) := by exact_mod_cast hA
  have hBq : (per : ℚ) * (n : ℚ) < (total : ℚ) + (per : ℚ) := by
    exact_mod_cast hB
  symm
  rw [Int.ceil_eq_iff]
  push_cast
  constructor
  · rw [lt_div_iff₀ hper']
    nlinarith [hBq]
  · rw [div_le_iff₀ hper']
    nlinarith [hAq]

/-- With pairwise distinct identifiers (the primary key), the filter on a
present identifier returns exactly the one matching record. -/
theorem filter_id_singleton (db : List MovieRecord) (mid : Int)
    (m : MovieRecord) (hnd : (db.map (fun x => x.id)).Nodup) (hm : m ∈ db)
    (hid : (m.id : Int) = mid) :
    db.filter (fun x => (x.id : Int) == mid) = [m] := by
  induction db with
  | nil => cases hm
  | cons a rest ih =>
    rw [List.map_cons, List.nodup_cons] at hnd
    obtain ⟨hna, hnr⟩ := hnd
    rcases List.mem_cons.mp hm with heq | hmem
    · subst heq
      rw [List.filter_cons_of_pos (by simp [hid])]
      congr 1
      rw [List.filter_eq_nil_iff]
      intro b hb hpb
      have hbid : (b.id : Int) = mid := by simpa using hpb
      have : b.id = m.id := by exact_mod_cast hbid.trans hid.symm
      exact hna (this ▸ List.mem_map_of_mem (fun x => x.id) hb)
    · have hane : ¬((a.id : Int) == mid) = true := by
        simp only [beq_iff_eq]
        intro haid
        have : a.id = m.id := by exact_mod_cast haid.trans hid.symm
        exact hna (this ▸ List.mem_map_of_mem (fun x => x.id) hmem)
      rw [List.filter_cons_of_neg (by simpa using hane)]
      exact ih hnr hmem

/-- The filter on an absent identifier returns the empty list. -/
theorem filter_id_nil (db : List MovieRecord) (mid : Int)
    (habs : ∀ m ∈ db, (m.id : Int) ≠ mid) :
    db.filter (fun x => (x.id : Int) == mid) = [] := by
  rw [List.filter_eq_nil_iff]
  intro b hb
  simpa using habs b hb

/-- Shape of a successful single-row insertion: the date was non-null, no
stored row collided on `(name, date)`, and the new record is appended. -/
theorem insertMovie_ok (db : List MovieRecord) (nid : Nat) (r : PreRow)
    (db1 : List MovieRecord) (h : insertMovie db nid r = .ok db1) :
    ∃ d, r.date_x = some d ∧
      (∀ m ∈ db, ¬(m.name = r.names ∧ m.date = d)) ∧
      db1 = db ++ [rowToMovie nid r d] := by
  unfold insertMovie at h
  split at h
  · exact absurd h (by simp)
  · next d hd =>
    split at h
    · exact absurd h (by simp)
    · next hany =>
      injection h with h
      refine ⟨d, hd, ?_, h.symm⟩
      intro m hm hcon
      exact hany (List.any_eq_true.mpr ⟨m, hm, by simpa using hcon⟩)

/-- A successful seeding loop appends exactly one record per row. -/
theorem seedLoop_ok_append (rs : List PreRow) :
    ∀ db nid db2, seedLoop db nid rs = .ok db2 →
      ∃ extra : List MovieRecord, db2 = db ++ extra ∧
        extra.length = rs.length := by
  induction rs with
  | nil =>
    intro db nid db2 h
    unfold seedLoop at h
    injection h with h
    exact ⟨[], by simp [h], rfl⟩
  | cons r rs ih =>
    intro db nid db2 h
    unfold seedLoop at h
    cases hr : insertMovie db nid r with
    | error e => rw [hr] at h; cases h
    | ok db1 =>
      rw [hr] at h
      obtain ⟨extra, he, hl⟩ := ih db1 (nid + 1) db2 h
      obtain ⟨d, _, _, hdb1⟩ := insertMovie_ok db nid r db1 hr
      refine ⟨rowToMovie nid r d :: extra, ?_, by simp [hl]⟩
      rw [he, hdb1]
      simp

/-- A successful seeding loop implies every row carried a parsed date. -/
theorem seedLoop_ok_dates (rs : List PreRow) :
    ∀ db nid db2, seedLoop db nid rs = .ok db2 →
      ∀ r ∈ rs, r.date_x ≠ none := by
  induction rs with
  | nil => intro db nid db2 _ r hr; cases hr
  | cons r rs ih =>
    intro db nid db2 h q hq
    unfold seedLoop at h
    cases hr : insertMovie db nid r with
    | error e => rw [hr] at h; cases h
    | ok db1 =>
      rw [hr] at h
      rcases List.mem_cons.mp hq with heq | hmem
      · subst heq
        obtain ⟨d, hd, _, _⟩ := insertMovie_ok db nid q db1 hr
        simp [hd]
      · exact ih db1 (nid + 1) db2 h q hmem

/-- A successful seeding loop preserves the `(name, date)` uniqueness
invariant of the store. -/
theorem seedLoop_ok_unique (rs : List PreRow) :
    ∀ db nid db2, uniqueNameDate db → seedLoop db nid rs = .ok db2 →
      uniqueNameDate db2 := by
  induction rs with
  | nil =>
    intro db nid db2 hu h
    unfold seedLoop at h
    injection h with h
    exact h ▸ hu
  | cons r rs ih =>
    intro db nid db2 hu h
    unfold seedLoop at h
    cases hr : insertMovie db nid r with
    | error e => rw [hr] at h; cases h
    | ok db1 =>
      rw [hr] at h
      obtain ⟨d, _, hnocol, hdb1⟩ := insertMovie_ok db nid r db1 hr
      refine ih db1 (nid + 1) db2 ?_ h
      rw [hdb1, uniqueNameDate, List.pairwise_append]
      refine ⟨hu, List.pairwise_singleton _ _, ?_⟩
      intro a ha b hb
      rw [List.mem_singleton] at hb
      subst hb
      exact fun hcon => hnocol a ha ⟨hcon.1, hcon.2⟩

/-- The deduplication worker keeps rows whose key is new, so the kept keys
are pairwise distinct and disjoint from the already-seen keys. -/
theorem dropDupAux_nodup (rows : List CsvRow) :
    ∀ seen, ((dropDupAux rows seen).map rawKey).Nodup ∧
      ∀ k ∈ (dropDupAux rows seen).map rawKey, k ∉ seen := by
  induction rows with
  | nil => intro seen; simp [dropDupAux]
  | cons r rs ih =>
    intro seen
    unfold dropDupAux
    split
    · exact ih seen
    · next hmem =>
      obtain ⟨h1, h2⟩ := ih (rawKey r :: seen)
      constructor
      · rw [List.map_cons, List.nodup_cons]
        exact ⟨fun hk => (h2 _ hk) (List.mem_cons_self _ _), h1⟩
      · intro k hk
        rw [List.map_cons] at hk
        rcases List.mem_cons.mp hk with heq | hk2
        · subst heq; exact hmem
        · exact fun hks => (h2 _ hk2) (List.mem_cons_of_mem _ hks)

/-- The deduplication worker returns a sublist of its input: kept rows
appear in their original order, first occurrences first. -/
theorem dropDupAux_sublist (rows : List CsvRow) :
    ∀ seen, List.Sublist (dropDupAux rows seen) rows := by
  induction rows with
  | nil => intro seen; simp [dropDupAux]
  | cons r rs ih =>
    intro seen
    unfold dropDupAux
    split
    · exact (ih seen).cons r
    · exact (ih (rawKey r :: seen)).cons₂ r

/-- No pagination link starts with the `/api/v1` segment: its second
character is already `t`, not `a`. -/
theorem pageLink_no_apiPfx (p per : Nat) :
    ¬ List.IsPrefix apiVersionPfx.data (pageLink p per).data := by
  intro h
  obtain ⟨t, ht⟩ := h
  simp only [pageLink, apiVersionPfx, String.data_append, List.append_assoc,
    List.cons_append] at ht
  injection ht with ha ht2
  injection ht2 with hb ht3
  exact absurd hb (by decide)

/-- Claim C1: for every request with `page ≥ 1` and `1 ≤ per_page ≤ 20`
against a store of `total_items` records, the list operation computes
`offset = (page-1) * per_page`, returns the records ordered by ascending
identifier after skipping `offset` and taking `per_page` (so a successful
response contains exactly `min(per_page, total_items - offset)` movies),
and reports `total_items` as the full store count and
`total_pages = ceil(total_items / per_page)`. -/
theorem C1_list_pagination (db : List MovieRecord) (page per_page : Nat)
    (resp : ListResponse) (hp : 1 ≤ page) (hpp1 : 1 ≤ per_page)
    (hpp2 : per_page ≤ 20) (h : get_movies db page per_page = .ok resp) :
    resp.movies = fetchedPage db page per_page ∧
    List.Sorted idLe resp.movies ∧
    resp.movies.length = min per_page (db.length - (page - 1) * per_page) ∧
    resp.total_items = db.length ∧
    resp.total_pages = (db.length + per_page - 1) / per_page ∧
    (resp.total_pages : ℤ) = ⌈(db.length : ℚ) / (per_page : ℚ)⌉ := by
  obtain ⟨hm, _, hti, htp, _, _⟩ := get_movies_ok_spec db page per_page resp h
  refine ⟨hm, ?_, ?_, hti, htp, ?_⟩
  · rw [hm]; exact fetchedPage_sorted db page per_page
  · rw [hm, fetchedPage_length]
  · rw [htp]; exact natCeilDiv_eq_ceil db.length per_page hpp1

/-- Witness for C1 at the concrete three-record store, page 2, per_page 2. -/
theorem C1_list_pagination_witness :
    wresp.movies = fetchedPage wdb 2 2 ∧
    List.Sorted idLe wresp.movies ∧
    wresp.movies.length = min 2 (wdb.length - (2 - 1) * 2) ∧
    wresp.total_items = wdb.length ∧
    wresp.total_pages = (wdb.length + 2 - 1) / 2 ∧
    (wresp.total_pages : ℤ) = ⌈(wdb.length : ℚ) / (2 : ℚ)⌉ :=
  C1_list_pagination wdb 2 2 wresp (by decide) (by decide) (by decide) rfl

/-- Claim C2: in every successful (non-404) list response, `prev_page` is
null exactly when `page = 1` and `next_page` is null exactly when
`page = total_pages`; the links are built exactly for `page > 1` and
`page < total_pages` respectively. -/
theorem C2_page_links (db : List MovieRecord) (page per_page : Nat)
    (resp : ListResponse) (hp : 1 ≤ page) (hpp1 : 1 ≤ per_page)
    (hpp2 : per_page ≤ 20) (h : get_movies db page per_page = .ok resp) :
    (resp.prev_page = none ↔ page = 1) ∧
    (resp.next_page = none ↔ page = resp.total_pages) ∧
    (1 < page → resp.prev_page = some (pageLink (page - 1) per_page)) ∧
    (page < resp.total_pages →
      resp.next_page = some (pageLink (page + 1) per_page)) := by
  obtain ⟨hm, hne, hti, htp, hprev, hnext⟩ :=
    get_movies_ok_spec db page per_page resp h
  have hofs : (page - 1) * per_page < db.length := by
    by_contra hge
    exact hne ((fetchedPage_eq_nil_iff db page per_page hpp1).mpr (by omega))
  have hple : page ≤ (db.length + per_page - 1) / per_page :=
    page_le_total_pages page per_page db.length hp hpp1 hofs
  refine ⟨?_, ?_, ?_, ?_⟩
  · rw [hprev]
    by_cases h1 : 1 < page
    · simp only [if_pos h1]
      constructor
      · intro hc; cases hc
      · intro hc; omega
    · simp only [if_neg h1]
      constructor
      · intro _; omega
      · intro _; trivial
  · rw [hnext, htp]
    by_cases h2 : page < (db.length + per_page - 1) / per_page
    · simp only [if_pos h2]
      constructor
      · intro hc; cases hc
      · intro hc; omega
    · simp only [if_neg h2]
      constructor
      · intro _; omega
      · intro _; trivial
  · intro h1; rw [hprev, if_pos h1]
  · intro h2; rw [htp] at h2; rw [hnext, if_pos h2]

/-- Witness for C2 at the concrete three-record store, page 2, per_page 2. -/
theorem C2_page_links_witness :
    (wresp.prev_page = none ↔ 2 = 1) ∧
    (wresp.next_page = none ↔ 2 = wresp.total_pages) ∧
    (1 < 2 → wresp.prev_page = some (pageLink (2 - 1) 2)) ∧
    (2 < wresp.total_pages → wresp.next_page = some (pageLink (2 + 1) 2)) :=
  C2_page_links wdb 2 2 wresp (by decide) (by decide) (by decide) rfl

/-- Claim C3: whenever the fetched page of the list operation is empty —
including when the store itself is empty and when `page` exceeds
`total_pages` — the operation raises 404 with detail "No movies found."
rather than returning an empty list. -/
theorem C3_empty_page_404 (db : List MovieRecord) (page per_page : Nat)
    (hp : 1 ≤ page) (hpp1 : 1 ≤ per_page) (hpp2 : per_page ≤ 20) :
    (fetchedPage db page per_page = [] →
      get_movies db page per_page = .error ⟨404, "No movies found."⟩) ∧
    (db = [] →
      get_movies db page per_page = .error ⟨404, "No movies found."⟩) ∧
    ((db.length + per_page - 1) / per_page < page →
      get_movies db page per_page = .error ⟨404, "No movies found."⟩) ∧
    (∀ resp, get_movies db page per_page = .ok resp → resp.movies ≠ []) := by
  refine ⟨get_movies_empty_spec db page per_page, ?_, ?_, ?_⟩
  · intro hdb
    subst hdb
    exact get_movies_empty_spec [] page per_page (by simp [fetchedPage, sortById])
  · intro hgt
    apply get_movies_empty_spec
    rw [fetchedPage_eq_nil_iff db page per_page hpp1]
    exact offset_ge_of_page_gt page per_page db.length hpp1 hgt
  · intro resp hok hnil
    obtain ⟨hm, hne, _, _, _, _⟩ := get_movies_ok_spec db page per_page resp hok
    exact hne (hm ▸ hnil)

/-- Witness for C3 on the empty store with the default parameters. -/
theorem C3_empty_page_404_witness :
    get_movies [] 1 10 = .error ⟨404, "No movies found."⟩ :=
  (C3_empty_page_404 [] 1 10 (by decide) (by decide) (by decide)).2.1 rfl

/-- Claim C4: for every integer movie identifier, the detail operation
returns the unique record with that identifier when it exists in the store
(identifiers are unique, being the primary key), and raises 404 with detail
"Movie with the given ID was not found." exactly when no record with that
identifier exists. -/
theorem C4_detail_lookup (db : List MovieRecord) (mid : Int)
    (hnd : (db.map (fun x => x.id)).Nodup) :
    ((∃ m ∈ db, (m.id : Int) = mid) →
      ∃ m, get_movie_by_id db mid = .ok m ∧ m ∈ db ∧ (m.id : Int) = mid ∧
        ∀ m2 ∈ db, (m2.id : Int) = mid → m2 = m) ∧
    ((∀ m ∈ db, (m.id : Int) ≠ mid) →
      get_movie_by_id db mid =
        .error ⟨404, "Movie with the given ID was not found."⟩) := by
  constructor
  · rintro ⟨m, hm, hid⟩
    have hfil := filter_id_singleton db mid m hnd hm hid
    refine ⟨m, ?_, hm, hid, ?_⟩
    · unfold get_movie_by_id
      rw [hfil]
      rfl
    · intro m2 hm2 hid2
      have : m2 ∈ db.filter (fun x => (x.id : Int) == mid) :=
        List.mem_filter.mpr ⟨hm2, by simpa using hid2⟩
      rw [hfil] at this
      exact List.mem_singleton.mp this
  · intro habs
    have hfil := filter_id_nil db mid habs
    unfold get_movie_by_id
    rw [hfil]
    rfl

/-- Witness for C4 on the concrete three-record store: identifier 2 is
found, and on the empty store any identifier is not found. -/
theorem C4_detail_lookup_witness :
    (∃ m, get_movie_by_id wdb 2 = .ok m ∧ m ∈ wdb ∧ (m.id : Int) = 2 ∧
      ∀ m2 ∈ wdb, (m2.id : Int) = 2 → m2 = m) :=
  (C4_detail_lookup wdb 2 (by decide)).1 ⟨mkMovie 2, by decide, by decide⟩

/-- The validation error list is empty exactly when both query parameters
sit within their declared bounds. -/
theorem validateListParams_nil_iff (page per_page : Option Int) :
    validateListParams page per_page = [] ↔
      ¬(page.getD 1 < 1 ∨ per_page.getD 10 < 1 ∨ 20 < per_page.getD 10) := by
  by_cases h1 : page.getD 1 < 1 <;> by_cases h2 : per_page.getD 10 < 1 <;>
    by_cases h3 : 20 < per_page.getD 10 <;>
    simp [validateListParams, h1, h2, h3]

/-- Counterexample to claim C5: the integer path segment `0` is not a
positive integer, yet the facade does not reject it with a 422 validation
failure; the handler runs and answers 404. -/
theorem C5_param_validation_cex :
    facade_get_movie_by_id [] (some 0) =
      .httpError ⟨404, "Movie with the given ID was not found."⟩ ∧
    (facade_get_movie_by_id [] (some 0)).is422 = false := ⟨rfl, rfl⟩

/-- The list facade answers 422 exactly when the validation error list is
nonempty, regardless of the store and of the handler outcome. -/
theorem facade_get_movies_is422 (db : List MovieRecord)
    (page per_page : Option Int) :
    (facade_get_movies db page per_page).is422 =
      !(validateListParams page per_page).isEmpty := by
  by_cases hemp : (validateListParams page per_page).isEmpty
  · simp only [facade_get_movies, hemp, if_true]
    cases get_movies db (page.getD 1).toNat (per_page.getD 10).toNat with
    | ok resp => simp [FacadeResult.is422, hemp]
    | error e => simp [FacadeResult.is422, hemp]
  · simp only [facade_get_movies]
    rw [if_neg hemp]
    simp [FacadeResult.is422, Bool.not_eq_true] at hemp ⊢
    exact hemp

/-- Claim C5 as amended: the facade rejects with a 422 validation failure,
before the handler runs, exactly the list requests whose parameters violate
the declared bounds (`page < 1`, `per_page < 1`, `per_page > 20`, with a
message naming the violated bound) and the detail requests whose path
segment does not parse as an integer; any parsed integer id — positive or
not — passes validation and reaches the handler. -/
theorem C5_param_validation (db : List MovieRecord)
    (page per_page segment : Option Int) :
    ((facade_get_movies db page per_page).is422 = true ↔
      (page.getD 1 < 1 ∨ per_page.getD 10 < 1 ∨ 20 < per_page.getD 10)) ∧
    (page.getD 1 < 1 →
      (⟨"page", "Input should be greater than or equal to 1"⟩ : ValidationError)
        ∈ validateListParams page per_page) ∧
    (per_page.getD 10 < 1 →
      (⟨"per_page", "Input should be greater than or equal to 1"⟩ : ValidationError)
        ∈ validateListParams page per_page) ∧
    (20 < per_page.getD 10 →
      (⟨"per_page", "Input should be less than or equal to 20"⟩ : ValidationError)
        ∈ validateListParams page per_page) ∧
    ((facade_get_movie_by_id db segment).is422 = true ↔ segment = none) := by
  refine ⟨?_, ?_, ?_, ?_, ?_⟩
  · rw [facade_get_movies_is422]
    cases hb : (validateListParams page per_page).isEmpty with
    | true =>
      rw [List.isEmpty_iff] at hb
      have hok := (validateListParams_nil_iff page per_page).mp hb
      simp [hok]
    | false =>
      have hne : validateListParams page per_page ≠ [] := by
        intro h0
        rw [h0] at hb
        cases hb
      have hcond : page.getD 1 < 1 ∨ per_page.getD 10 < 1 ∨
          20 < per_page.getD 10 := by
        by_contra hc
        exact hne ((validateListParams_nil_iff page per_page).mpr hc)
      simp [hcond]
  · intro h1
    simp [validateListParams, h1]
  · intro h2
    simp [validateListParams, h2]
  · intro h3
    have h2 : ¬per_page.getD 10 < 1 := by omega
    simp [validateListParams, h2, h3]
  · cases segment with
    | none => simp [facade_get_movie_by_id, FacadeResult.is422]
    | some i =>
      simp only [facade_get_movie_by_id]
      cases get_movie_by_id db i with
      | ok m => simp [FacadeResult.is422]
      | error e => simp [FacadeResult.is422]

/-- Witness for C5 as amended: `page = 0` is 422-rejected with the
minimum-bound message, and the integer segment `5` is not 422-rejected. -/
theorem C5_param_validation_witness :
    (facade_get_movies [] (some 0) none).is422 = true ∧
    (⟨"page", "Input should be greater than or equal to 1"⟩ : ValidationError)
      ∈ validateListParams (some 0) none ∧
    (facade_get_movie_by_id [] (some 5)).is422 = false := by
  refine ⟨?_, ?_, ?_⟩
  · exact (C5_param_validation [] (some 0) none (some 5)).1.mpr
      (Or.inl (by decide))
  · exact (C5_param_validation [] (some 0) none (some 5)).2.1 (by decide)
  · have h := (C5_param_validation [] (some 0) none (some 5)).2.2.2.2
    simpa using h

/-- Counterexample to claim C6: a row whose trimmed date field does not
parse as month/day/year is coerced to null but NOT excluded — the
preprocessed batch still contains it (with a null date), contradicting the
lenient drop policy. -/
theorem C6_date_policy_cex :
    parse_mdY (strTrim "not-a-date") = none ∧
    (preprocess_csv [rawRow "A" "not-a-date"]).length = 1 ∧
    (preprocess_csv [rawRow "A" "not-a-date"]).map (fun r => r.date_x) =
      [none] := by decide

/-- Claim C6 as amended: the seeder follows neither drop policy —
`_preprocess_csv` coerces unparseable dates to null but keeps the rows
(the batch size is exactly the deduplicated row count, and every
deduplicated row survives preprocessing); a batch containing such a row can
only fail to seed, so a run of `seed` that reports no error had a parsed,
non-null date on every row. -/
theorem C6_date_policy (db : List MovieRecord) (rows : List CsvRow) :
    (preprocess_csv rows).length = (drop_duplicates rows).length ∧
    (∀ r ∈ drop_duplicates rows, preprocessRow r ∈ preprocess_csv rows) ∧
    ((seed db rows).2 = none →
      ∀ r ∈ preprocess_csv rows, r.date_x.isSome = true) := by
  refine ⟨by simp [preprocess_csv], ?_, ?_⟩
  · intro r hr
    exact List.mem_map_of_mem preprocessRow hr
  · intro hok r hr
    unfold seed at hok
    cases hsl : seedLoop db (nextIdOf db) (preprocess_csv rows) with
    | ok db2 =>
      have := seedLoop_ok_dates (preprocess_csv rows) db (nextIdOf db) db2
        hsl r hr
      exact Option.ne_none_iff_isSome.mp this
    | error e =>
      rw [hsl] at hok
      exact absurd hok (by simp)

/-- Witness for C6 as amended, on a one-row batch with a parseable date. -/
theorem C6_date_policy_witness :
    (preprocess_csv [rawRow "A" "01/15/2000"]).length =
      (drop_duplicates [rawRow "A" "01/15/2000"]).length ∧
    preprocessRow (rawRow "A" "01/15/2000") ∈
      preprocess_csv [rawRow "A" "01/15/2000"] ∧
    (preprocessRow (rawRow "A" "01/15/2000")).date_x.isSome = true := by
  refine ⟨?_, ?_, ?_⟩
  · exact (C6_date_policy [] [rawRow "A" "01/15/2000"]).1
  · exact (C6_date_policy [] [rawRow "A" "01/15/2000"]).2.1
      (rawRow "A" "01/15/2000") (by decide)
  · exact (C6_date_policy [] [rawRow "A" "01/15/2000"]).2.2 (by decide)
      (preprocessRow (rawRow "A" "01/15/2000")) (by decide)

/-- Claim C7: seeding is atomic — on any database error during the batch
the store is left unchanged and the error propagates to the caller of
`seed` (as the second component), and a successful run appends exactly one
record per preprocessed row, committed all at once. -/
theorem C7_seed_atomic (db : List MovieRecord) (rows : List CsvRow) :
    ((seed db rows).2.isSome = true → (seed db rows).1 = db) ∧
    ((seed db rows).2 = none →
      ∃ extra, (seed db rows).1 = db ++ extra ∧
        extra.length = (preprocess_csv rows).length) := by
  unfold seed
  cases hsl : seedLoop db (nextIdOf db) (preprocess_csv rows) with
  | ok db2 =>
    refine ⟨?_, ?_⟩
    · intro hcon
      exact absurd hcon (by simp)
    · intro _
      obtain ⟨extra, he, hl⟩ :=
        seedLoop_ok_append (preprocess_csv rows) db (nextIdOf db) db2 hsl
      exact ⟨extra, he, hl⟩
  | error e =>
    exact ⟨fun _ => rfl, fun hcon => absurd hcon (by simp)⟩

/-- Witness for C7: a batch with an unparseable date fails and leaves the
empty store empty. -/
theorem C7_seed_atomic_witness :
    (seed [] [rawRow "A" "TBD"]).1 = ([] : List MovieRecord) :=
  (C7_seed_atomic [] [rawRow "A" "TBD"]).1 (by decide)

/-- Claim C8: a successful seed run — the only writer — preserves the
store invariant that no two records share the `(name, date)` pair, and the
seeder's deduplication keeps rows with pairwise distinct raw
`(names, date_x)` keys, first occurrences first (a sublist of the input). -/
theorem C8_unique_name_date (db : List MovieRecord) (rows : List CsvRow)
    (hu : uniqueNameDate db) :
    ((seed db rows).2 = none → uniqueNameDate (seed db rows).1) ∧
    ((drop_duplicates rows).map rawKey).Nodup ∧
    List.Sublist (drop_duplicates rows) rows := by
  refine ⟨?_, (dropDupAux_nodup rows []).1, dropDupAux_sublist rows []⟩
  intro hok
  unfold seed at hok ⊢
  cases hsl : seedLoop db (nextIdOf db) (preprocess_csv rows) with
  | ok db2 =>
    exact seedLoop_ok_unique (preprocess_csv rows) db (nextIdOf db) db2 hu hsl
  | error e =>
    rw [hsl] at hok
    exact absurd hok (by simp)

/-- Witness for C8: seeding one clean row into the empty store yields a
store satisfying the uniqueness invariant. -/
theorem C8_unique_name_date_witness :
    uniqueNameDate (seed [] [rawRow "A" "01/15/2000"]).1 ∧
    ((drop_duplicates [rawRow "A" "01/15/2000"]).map rawKey).Nodup := by
  refine ⟨?_, ?_⟩
  · exact (C8_unique_name_date [] [rawRow "A" "01/15/2000"]
      List.Pairwise.nil).1 (by decide)
  · exact (C8_unique_name_date [] [rawRow "A" "01/15/2000"]
      List.Pairwise.nil).2.1

/-- A fractional budget makes the whole serialization fail: the pydantic
`int` coercion of `budget` rejects it. -/
theorem serialize_movie_none_of_frac (m : MovieRecord)
    (hs : m.score.den = 1) (hb : m.budget.den ≠ 1) :
    serialize_movie m = none := by
  unfold serialize_movie intCoerce
  rw [if_pos hs, if_neg hb]
  rfl

/-- Counterexample to claim C9: a stored record with fractional budget is
not serialized with the budget truncated — serialization fails outright
(the `int` coercion rejects a number with a fractional part) — while the
same fractional value in `revenue` would be truncated by its serializer, so
the two monetary fields do not follow one consistent truncation rule. -/
theorem C9_serialization_cex :
    fracMovie.budget = 201 / 2 ∧
    serialize_movie fracMovie = none ∧
    intTrunc fracMovie.revenue = 100 := by
  refine ⟨rfl, ?_, ?_⟩
  · apply serialize_movie_none_of_frac
    · show (7 : ℚ).den = 1
      norm_num
    · show ((201 : ℚ) / 2).den ≠ 1
      norm_num
  · show intTrunc ((201 : ℚ) / 2) = 100
    have hden : ((201 : ℚ) / 2).den = 2 := by norm_num
    have hnum : ((201 : ℚ) / 2).num = 201 := by norm_num
    unfold intTrunc
    rw [hnum, hden]
    decide

/-- Claim C9 as amended: `revenue` is truncated to an integer by its field
serializer, while `budget` (and `score`) pass through an `int` annotation
that only accepts whole numbers; for every record whose budget and score
are whole, the serialized detail object exists and carries all MovieRecord
fields, with the date rendered ISO-8601 and revenue truncated. -/
theorem C9_serialization (m : MovieRecord) (hb : m.budget.den = 1)
    (hs : m.score.den = 1) :
    serialize_movie m = some
      { id := m.id, name := m.name, date := isoDate m.date,
        score := m.score.num, genre := m.genre, overview := m.overview,
        crew := m.crew, orig_title := m.orig_title, status := m.status,
        orig_lang := m.orig_lang, budget := m.budget.num,
        revenue := intTrunc m.revenue, country := m.country } := by
  unfold serialize_movie intCoerce
  rw [if_pos hs, if_pos hb]
  rfl

/-- Witness for C9 as amended at a concrete whole-budget record. -/
theorem C9_serialization_witness :
    serialize_movie (mkMovie 1) = some
      { id := (mkMovie 1).id, name := (mkMovie 1).name,
        date := isoDate (mkMovie 1).date, score := (mkMovie 1).score.num,
        genre := (mkMovie 1).genre, overview := (mkMovie 1).overview,
        crew := (mkMovie 1).crew, orig_title := (mkMovie 1).orig_title,
        status := (mkMovie 1).status, orig_lang := (mkMovie 1).orig_lang,
        budget := (mkMovie 1).budget.num,
        revenue := intTrunc (mkMovie 1).revenue,
        country := (mkMovie 1).country } :=
  C9_serialization (mkMovie 1) (by decide) (by decide)

/-- Claim C10: every non-null pagination link is exactly the string
`"/theater/movies/?page=N&per_page=M"` with `N` the request's page minus or
plus one and `M` the request's `per_page`; these links omit the `/api/v1`
prefix under which the routes are mounted, so they do not extend the served
base path `/api/v1/theater/movies/`. -/
theorem C10_links_omit_api (db : List MovieRecord) (page per_page : Nat)
    (resp : ListResponse) (h : get_movies db page per_page = .ok resp) :
    (∀ s, resp.prev_page = some s →
      s = "/theater/movies/?page=" ++ toString (page - 1) ++ "&per_page=" ++
        toString per_page ∧
      ¬ List.IsPrefix apiVersionPfx.data s.data) ∧
    (∀ s, resp.next_page = some s →
      s = "/theater/movies/?page=" ++ toString (page + 1) ++ "&per_page=" ++
        toString per_page ∧
      ¬ List.IsPrefix apiVersionPfx.data s.data) ∧
    listRouteFullPath = "/api/v1/theater/movies/" := by
  obtain ⟨_, _, _, _, hprev, hnext⟩ :=
    get_movies_ok_spec db page per_page resp h
  refine ⟨?_, ?_, rfl⟩
  · intro s hs
    rw [hprev] at hs
    split at hs
    · injection hs with hs
      subst hs
      exact ⟨rfl, pageLink_no_apiPfx (page - 1) per_page⟩
    · cases hs
  · intro s hs
    rw [hnext] at hs
    split at hs
    · injection hs with hs
      subst hs
      exact ⟨rfl, pageLink_no_apiPfx (page + 1) per_page⟩
    · cases hs

/-- Witness for C10 at the concrete three-record store, page 2,
per_page 2: the previous-page link is the bare `/theater/...` string and
does not start with `/api/v1`. -/
theorem C10_links_omit_api_witness :
    pageLink 1 2 = "/theater/movies/?page=" ++ toString (2 - 1) ++
      "&per_page=" ++ toString 2 ∧
    ¬ List.IsPrefix apiVersionPfx.data (pageLink 1 2).data ∧
    listRouteFullPath = "/api/v1/theater/movies/" :=
  let h := C10_links_omit_api wdb 2 2 wresp rfl
  ⟨(h.1 (pageLink 1 2) rfl).1, (h.1 (pageLink 1 2) rfl).2, h.2.2⟩
